import Mathlib

/-!
Verification of the sgveganalysis repository: a HappyCow scraper
(sector-based crawl orchestration persisting to a Postgres/Supabase store)
plus a map-rendering client that fetches and filters restaurant rows.

The development shallowly embeds:
* the map client's fetch operations (`src/map` `lib/supabase.ts`):
  `fetchRestaurants` and `fetchRestaurantsWithFilters` as pure functions
  over a list of table rows, mirroring the PostgREST query the code builds;
* the SQL function `update_scraping_progress` from the batch-processing
  migration script, as a pure function over the `scraping_progress` table
  (time is an explicit parameter standing for `NOW()`);
* the scraper core (record extractor, deduplicating writer, session
  manager, sector orchestrator, enrichment), whose Python sources are not
  in the repository snapshot; those parts are modelled from the spec and
  marked as such in their doc comments.

Numeric SQL/JS values are modelled with `Rat` (DECIMAL columns, ratings)
and `Int`/`Nat` (INTEGER columns, ids); nullable columns and optional
fields are `Option`; timestamps are explicit `Nat` parameters.
-/

/-! ### Map client data model (`src/map/src/types/restaurant.ts`) -/

/-- A row of the `restaurants` table as seen by the map client
(the `Restaurant` interface; nullable columns are `Option`). -/
structure Restaurant where
  id : Nat
  name : String
  address : Option String
  phone : Option String
  website : Option String
  cow_reviews : Option String
  description : Option String
  category : Option String
  price_range : Option String
  rating : Option Rat
  review_count : Option Nat
  latitude : Option Rat
  longitude : Option Rat
  is_vegan : Bool
  is_vegetarian : Bool
  has_veg_options : Bool
  features : List String
  hours : Option String
  images_links : List String
  happycow_url : Option String
  scraped_at : String
  created_at : String
  updated_at : String
deriving Repr, DecidableEq

/-- The filter object accepted by `fetchRestaurantsWithFilters`
(the `RestaurantFilters` interface plus the `features` key; a missing
key is `none`, mirroring `undefined`). -/
structure RestaurantFilters where
  is_vegan : Option Bool := none
  is_vegetarian : Option Bool := none
  has_veg_options : Option Bool := none
  is_other : Option Bool := none
  category : Option String := none
  price_range : Option String := none
  min_rating : Option Rat := none
  features : Option (List String) := none
deriving Repr, DecidableEq

/-- The `restaurants` table contents, as the list of its rows. -/
abbrev RestaurantTable := List Restaurant

/-- The clause `.not('latitude', 'is', null).not('longitude', 'is', null)`:
both coordinate columns are non-null. -/
def coordsNotNull (r : Restaurant) : Bool :=
  r.latitude.isSome && r.longitude.isSome

/-- The `.order('name')` comparison used by both fetch functions. -/
def nameLe (a b : Restaurant) : Prop := a.name ≤ b.name

instance : DecidableRel nameLe :=
  fun a b => inferInstanceAs (Decidable (a.name ≤ b.name))

instance : IsTotal Restaurant nameLe := ⟨fun a b => le_total a.name b.name⟩

instance : IsTrans Restaurant nameLe := ⟨fun _ _ _ h1 h2 => le_trans h1 h2⟩

/-- The clause `.order('name')`: return the rows sorted by the `name` column. -/
def orderByName (l : List Restaurant) : List Restaurant :=
  l.insertionSort nameLe

/-- Function `fetchRestaurants` (`lib/supabase.ts`): select all rows with
non-null coordinates, ordered by name. -/
def fetchRestaurants (db : RestaurantTable) : List Restaurant :=
  orderByName (db.filter coordsNotNull)

/-- The `checkboxFilters` array built by `fetchRestaurantsWithFilters`:
one PostgREST condition per truthy checkbox key.  JavaScript truthiness
makes `some false` behave like a missing key. -/
def checkboxFilters (f : RestaurantFilters) : List (Restaurant → Bool) :=
  (if f.is_vegan = some true then [fun r => r.is_vegan] else []) ++
  (if f.is_vegetarian = some true then [fun r => r.is_vegetarian] else []) ++
  (if f.has_veg_options = some true then [fun r => r.has_veg_options] else []) ++
  (if f.is_other = some true then
    [fun r => !r.is_vegan && !r.is_vegetarian && !r.has_veg_options]
   else [])

/-- The row predicate denoted by the query `fetchRestaurantsWithFilters`
builds: coordinates non-null, OR of the checkbox conditions (skipped when
none is selected), then the category / price / rating / features clauses.
Guards mirror the JavaScript truthiness tests (`''` and `0` are falsy);
SQL comparisons against a NULL column do not match. -/
def matchesFilters (f : RestaurantFilters) (r : Restaurant) : Bool :=
  coordsNotNull r
  && (let cs := checkboxFilters f
      cs.isEmpty || cs.any (fun c => c r))
  && (match f.category with
      | some c => if c ≠ "" && c ≠ "all" then r.category == some c else true
      | none => true)
  && (match f.price_range with
      | some p => if p ≠ "" then r.price_range == some p else true
      | none => true)
  && (match f.min_rating with
      | some m =>
        if m ≠ 0 then
          match r.rating with
          | some v => decide (m ≤ v)
          | none => false
        else true
      | none => true)
  && (match f.features with
      | some fs =>
        if fs.isEmpty then true else fs.any (fun ft => r.features.contains ft)
      | none => true)

/-- Function `fetchRestaurantsWithFilters` (`lib/supabase.ts`): rows with non-null
coordinates matching every active filter clause, ordered by name. -/
def fetchRestaurantsWithFilters (f : RestaurantFilters) (db : RestaurantTable) :
    List Restaurant :=
  orderByName (db.filter (matchesFilters f))

/-- A concrete row flagged both vegan and vegetarian (the tier flags are
independent booleans in the schema, so such a row is representable). -/
def rBoth : Restaurant :=
  { id := 1, name := "Green Cafe", address := none, phone := none,
    website := none, cow_reviews := none, description := none,
    category := none, price_range := none, rating := none,
    review_count := none, latitude := some 1, longitude := some 103,
    is_vegan := true, is_vegetarian := true, has_veg_options := false,
    features := [], hours := none, images_links := [], happycow_url := none,
    scraped_at := "", created_at := "", updated_at := "" }

/-- A concrete row with all three tier flags false (an "other" row). -/
def rOther : Restaurant :=
  { id := 2, name := "Steak House", address := none, phone := none,
    website := none, cow_reviews := none, description := none,
    category := none, price_range := none, rating := none,
    review_count := none, latitude := some 2, longitude := some 104,
    is_vegan := false, is_vegetarian := false, has_veg_options := false,
    features := [], hours := none, images_links := [], happycow_url := none,
    scraped_at := "", created_at := "", updated_at := "" }

/-! ### Scraper core (record extractor, deduplicating writer, session
manager, sector orchestrator, enrichment)

The Python sources of these components are not in the repository
snapshot (only their documentation and the SQL they rely on are), so
they are modelled from the spec, against the SQL schema of
`setup_fresh_database.sql`. -/

/-- Modelled from the spec: a raw marker fragment as reported by the
page reader for one sector (§4.4) — every field may be missing; the
Python `data_extractor.py` is not in the snapshot. -/
structure RawFragment where
  name : Option String
  latitude : Option Rat
  longitude : Option Rat
  address : Option String
  phone : Option String
  website : Option String
  description : Option String
  category : Option String
  price_range : Option String
  rating : Option Rat
  review_count : Option Nat
  hours : Option String
  features : List String
  happycow_url : Option String
  is_vegan : Bool
  is_vegetarian : Bool
  has_veg_options : Bool
deriving Repr, DecidableEq

/-- Modelled from the spec: the extractor's rejection reasons (§4.4). -/
inductive RejectReason where
  | MissingCoordinates
  | MissingName
deriving Repr, DecidableEq

/-- Modelled from the spec: a validated candidate record (§4.4) — name
non-empty, both coordinates present; other fields optional. -/
structure CandidateRecord where
  name : String
  latitude : Rat
  longitude : Rat
  address : Option String
  phone : Option String
  website : Option String
  description : Option String
  category : Option String
  price_range : Option String
  rating : Option Rat
  review_count : Option Nat
  hours : Option String
  features : List String
  happycow_url : Option String
  is_vegan : Bool
  is_vegetarian : Bool
  has_veg_options : Bool
deriving Repr, DecidableEq

/-- Modelled from the spec: the record extractor (§4.4,
`raw_fragment -> Result<Record, RejectReason>`); the name must be
non-empty and both coordinates present, optional fields pass through. -/
def extractRecord (f : RawFragment) : Except RejectReason CandidateRecord :=
  match f.latitude, f.longitude with
  | some la, some lo =>
    match f.name with
    | some n =>
      if n = "" then .error .MissingName
      else
        .ok { name := n, latitude := la, longitude := lo,
              address := f.address, phone := f.phone, website := f.website,
              description := f.description, category := f.category,
              price_range := f.price_range, rating := f.rating,
              review_count := f.review_count, hours := f.hours,
              features := f.features, happycow_url := f.happycow_url,
              is_vegan := f.is_vegan, is_vegetarian := f.is_vegetarian,
              has_veg_options := f.has_veg_options }
    | none => .error .MissingName
  | _, _ => .error .MissingCoordinates

/-- The `restaurants` table held by the record store, with the SERIAL
id sequence (`setup_fresh_database.sql`); rows are `Restaurant` exactly
as the map client reads them back. -/
structure Store where
  rows : List Restaurant
  nextId : Nat
deriving Repr, DecidableEq

/-- A freshly created store: no rows, SERIAL sequence at 1. -/
def emptyStore : Store := { rows := [], nextId := 1 }

/-- Modelled from the spec: the deduplicating writer's insert outcome
(§4.5, `{Inserted(id) | AlreadyExists | Rejected(reason)}`). -/
inductive InsertOutcome where
  | Inserted (id : Nat)
  | AlreadyExists
  | Rejected (reason : RejectReason)
deriving Repr, DecidableEq

/-- Whether some stored row already occupies `(latitude, longitude)` —
the `unique_restaurant_location` UNIQUE constraint of
`setup_fresh_database.sql` fires exactly when this is true (NULL
coordinates never conflict under SQL UNIQUE semantics, and a candidate
always carries concrete coordinates). -/
def locationTaken (s : Store) (la lo : Rat) : Bool :=
  s.rows.any (fun r => r.latitude == some la && r.longitude == some lo)

/-- The row a candidate becomes on insertion: the id comes from the
SERIAL sequence; fields the crawl pass does not supply stay NULL/empty. -/
def candidateRow (id : Nat) (c : CandidateRecord) : Restaurant :=
  { id := id, name := c.name, address := c.address, phone := c.phone,
    website := c.website, cow_reviews := none,
    description := c.description, category := c.category,
    price_range := c.price_range, rating := c.rating,
    review_count := c.review_count, latitude := some c.latitude,
    longitude := some c.longitude, is_vegan := c.is_vegan,
    is_vegetarian := c.is_vegetarian, has_veg_options := c.has_veg_options,
    features := c.features, hours := c.hours, images_links := [],
    happycow_url := c.happycow_url, scraped_at := "", created_at := "",
    updated_at := "" }

/-- Modelled from the spec: the deduplicating writer (§4.5).  Insertion
under the coordinate-uniqueness constraint; a uniqueness violation is
caught and reinterpreted as `AlreadyExists`, leaving the store
untouched; otherwise the row is added with the next SERIAL id. -/
def insertRecord (s : Store) (c : CandidateRecord) : InsertOutcome × Store :=
  if locationTaken s c.latitude c.longitude then
    (.AlreadyExists, s)
  else
    (.Inserted s.nextId,
     { rows := s.rows ++ [candidateRow s.nextId c], nextId := s.nextId + 1 })

/-- Modelled from the spec: the fields a detail page can report during
enrichment (§4.7); each may be absent on the page. -/
structure DetailFields where
  address : Option String
  phone : Option String
  website : Option String
  cow_reviews : Option String
  description : Option String
  category : Option String
  price_range : Option String
  rating : Option Rat
  review_count : Option Nat
  hours : Option String
deriving Repr, DecidableEq

/-- Write a field only when it is currently absent. -/
def fillAbsent {α : Type} (old new : Option α) : Option α :=
  match old with
  | some v => some v
  | none => new

/-- Modelled from the spec: the enrichment update on one row (§4.7) —
only fields currently absent are written; populated fields, and the
required name/coordinates/flags, are untouched. -/
def enrichRow (r : Restaurant) (d : DetailFields) : Restaurant :=
  { r with
    address := fillAbsent r.address d.address,
    phone := fillAbsent r.phone d.phone,
    website := fillAbsent r.website d.website,
    cow_reviews := fillAbsent r.cow_reviews d.cow_reviews,
    description := fillAbsent r.description d.description,
    category := fillAbsent r.category d.category,
    price_range := fillAbsent r.price_range d.price_range,
    rating := fillAbsent r.rating d.rating,
    review_count := fillAbsent r.review_count d.review_count,
    hours := fillAbsent r.hours d.hours }

/-- Modelled from the spec: enrichment applied through the store
(`update_fields(id, partial_fields)` of §6), touching only the row with
the given id. -/
def enrichStore (s : Store) (id : Nat) (d : DetailFields) : Store :=
  { s with rows := s.rows.map (fun r => if r.id == id then enrichRow r d else r) }

/-- Modelled from the spec: a crawl session as the session manager sees
it (§3, §4.6) — total units, processed count, cursor, completion flag,
optional error message. -/
structure Session where
  session_id : String
  total_units : Nat
  processed : Nat
  cursor : Nat
  completed : Bool
  error_message : Option String
deriving Repr, DecidableEq

/-- Modelled from the spec: `start(total_units)` (§4.6) — cursor 0,
state RUNNING (not completed). -/
def startSession (sid : String) (total : Nat) : Session :=
  { session_id := sid, total_units := total, processed := 0, cursor := 0,
    completed := false, error_message := none }

/-- Modelled from the spec: `advance(session_id, processed_count,
cursor)` (§4.6). -/
def advanceSession (s : Session) (pc cur : Nat) : Session :=
  { s with processed := pc, cursor := cur }

/-- Modelled from the spec: `complete(session_id)` (§4.6). -/
def completeSession (s : Session) : Session :=
  { s with completed := true }

/-- Modelled from the spec: `fail(session_id, message)` (§4.6) —
records the error message without touching the completion flag. -/
def failSession (s : Session) (msg : String) : Session :=
  { s with error_message := some msg }

/-- Modelled from the spec: `resume(session_id) -> cursor` (§4.6) — a
completed session is terminal and cannot be resumed; otherwise the last
committed cursor is returned. -/
def resumeSession (s : Session) : Except String Nat :=
  if s.completed then .error "session already completed" else .ok s.cursor

/-- The orchestrator's durable state: the record store plus the session
row (both live in the same database). -/
structure OrchState where
  store : Store
  session : Session
deriving Repr, DecidableEq

/-- One fragment through extractor and writer: invalid fragments are
dropped, valid candidates are inserted (dedup included). -/
def processFragment (s : Store) (f : RawFragment) : Store :=
  match extractRecord f with
  | .ok c => (insertRecord s c).2
  | .error _ => s

/-- Modelled from the spec: persisting one sector's fragments as a unit
(§4.3 steps 3-4). -/
def processSector (s : Store) (frags : List RawFragment) : Store :=
  frags.foldl processFragment s

/-- Modelled from the spec: one iteration of the orchestrator loop on
sector `k` (§4.3): extract and persist the sector, then synchronously
advance the session to processed count `k+1` and cursor `k+1`. -/
def orchStep (os : OrchState) (k : Nat) (frags : List RawFragment) : OrchState :=
  { store := processSector os.store frags,
    session := advanceSession os.session (k + 1) (k + 1) }

/-- Modelled from the spec: the orchestrator's main loop from sector
index `k` over the remaining sectors, committing progress after each
sector (§4.3). -/
def runSectorsFrom (os : OrchState) (k : Nat) :
    List (List RawFragment) → OrchState
  | [] => os
  | frags :: rest => runSectorsFrom (orchStep os k frags) (k + 1) rest

/-- Modelled from the spec: the `resume SESSION_ID` operation (§4.6,
§6): rejected with an error (state untouched) when the session is
completed; otherwise the run continues from the committed cursor over
the not-yet-processed sectors only. -/
def resumeRun (os : OrchState) (sectors : List (List RawFragment)) :
    Except String Unit × OrchState :=
  match resumeSession os.session with
  | .error e => (.error e, os)
  | .ok cur => (.ok (), runSectorsFrom os cur (sectors.drop cur))

/-- Stores reachable through the deduplicating writer and enrichment —
the only mutation paths of the record lifecycle (§3). -/
inductive ReachableStore : Store → Prop where
  | empty : ReachableStore emptyStore
  | insert (s : Store) (c : CandidateRecord) :
      ReachableStore s → ReachableStore (insertRecord s c).2
  | enrich (s : Store) (id : Nat) (d : DetailFields) :
      ReachableStore s → ReachableStore (enrichStore s id d)

/-- Stores reachable through the full crawl pipeline (extractor in
front of the writer, sector by sector) and enrichment. -/
inductive PipelineReachable : Store → Prop where
  | empty : PipelineReachable emptyStore
  | sector (s : Store) (frags : List RawFragment) :
      PipelineReachable s → PipelineReachable (processSector s frags)
  | enrich (s : Store) (id : Nat) (d : DetailFields) :
      PipelineReachable s → PipelineReachable (enrichStore s id d)

/-- A concrete candidate record for witnesses. -/
def cA : CandidateRecord :=
  { name := "Loving Hut", latitude := 1, longitude := 103,
    address := none, phone := none, website := none, description := none,
    category := none, price_range := none, rating := none,
    review_count := none, hours := none, features := [],
    happycow_url := none, is_vegan := true, is_vegetarian := false,
    has_veg_options := false }

/-- A second candidate at the same coordinates under a different name. -/
def cB : CandidateRecord :=
  { name := "Different Name", latitude := 1, longitude := 103,
    address := none, phone := none, website := none, description := none,
    category := none, price_range := none, rating := none,
    review_count := none, hours := none, features := [],
    happycow_url := none, is_vegan := false, is_vegetarian := true,
    has_veg_options := false }

/-- A concrete raw fragment that extracts successfully. -/
def fragA : RawFragment :=
  { name := some "Loving Hut", latitude := some 1, longitude := some 103,
    address := none, phone := none, website := none, description := none,
    category := none, price_range := none, rating := none,
    review_count := none, hours := none, features := [],
    happycow_url := none, is_vegan := true, is_vegetarian := false,
    has_veg_options := false }

/-- The required-field condition every persisted row must satisfy:
non-empty name and both coordinates present. -/
def validRow (r : Restaurant) : Prop :=
  r.name ≠ "" ∧ r.latitude.isSome = true ∧ r.longitude.isSome = true

/-- A concrete stored row with every enrichable field populated. -/
def rFull : Restaurant :=
  { id := 7, name := "Real Food", address := some "110 Upper Cross St",
    phone := some "+65 6224 4492", website := some "https://realfood.sg",
    cow_reviews := some "https://happycow.net/reviews/7",
    description := some "organic cafe", category := some "Vegetarian",
    price_range := some "$$", rating := some 4, review_count := some 120,
    latitude := some 1, longitude := some 103, is_vegan := false,
    is_vegetarian := true, has_veg_options := false, features := ["wifi"],
    hours := some "9-21", images_links := [], happycow_url := none,
    scraped_at := "", created_at := "", updated_at := "" }

/-- A concrete detail page reporting different values for every field. -/
def dOther : DetailFields :=
  { address := some "somewhere else", phone := some "+65 0000 0000",
    website := some "https://other.example", cow_reviews := some "other",
    description := some "different text", category := some "Vegan",
    price_range := some "$", rating := some 2, review_count := some 5,
    hours := some "closed" }

/-- A concrete orchestrator state whose session has been completed. -/
def osCompleted : OrchState :=
  { store := emptyStore, session := completeSession (startSession "s" 48) }

/-- Membership in a filtered fetch is membership in the table together
with the query predicate (the `.order('name')` step only permutes). -/
theorem mem_fetchRestaurantsWithFilters {f : RestaurantFilters}
    {db : RestaurantTable} {r : Restaurant} :
    r ∈ fetchRestaurantsWithFilters f db ↔ r ∈ db ∧ matchesFilters f r = true := by
  simp [fetchRestaurantsWithFilters, orderByName, List.mem_insertionSort,
    List.mem_filter]

/-- Membership in the unfiltered fetch is membership in the table with
both coordinates non-null. -/
theorem mem_fetchRestaurants {db : RestaurantTable} {r : Restaurant} :
    r ∈ fetchRestaurants db ↔ r ∈ db ∧ coordsNotNull r = true := by
  simp [fetchRestaurants, orderByName, List.mem_insertionSort, List.mem_filter]

/-! ### The `scraping_progress` table and `update_scraping_progress`
(SQL migration script `update_progress_table.sql`) -/

/-- A row of the `scraping_progress` table: the columns of the base
schema (`setup_fresh_database.sql`) plus the batch-processing columns
added by the migration script.  Timestamps are `Nat` clock readings;
nullable columns are `Option`.  The SERIAL `id` column is not modelled
(rows are addressed by the UNIQUE `session_id`, as the SQL does). -/
structure ProgressRow where
  session_id : String
  started_at : Nat
  last_updated : Nat
  total_restaurants : Int
  scraped_count : Int
  failed_count : Int
  is_completed : Bool
  scraped_restaurants : List String
  created_at : Nat
  updated_at : Nat
  batch_size : Int
  current_batch : Int
  total_batches : Int
  processed_restaurants : Int
  last_batch_completed_at : Option Nat
  error_message : Option String
  resume_from_batch : Int
deriving Repr, DecidableEq

/-- The UPDATE branch of `update_scraping_progress`, applied to one row:
`SET processed_restaurants, current_batch, is_completed, error_message,
last_updated = NOW(), last_batch_completed_at = CASE WHEN
is_completed_param THEN NOW() ELSE last_batch_completed_at END
WHERE session_id = session_id_param`. -/
def applyProgressUpdate (sid : String) (pc cb : Int) (ic : Bool)
    (em : Option String) (now : Nat) (r : ProgressRow) : ProgressRow :=
  if r.session_id == sid then
    { r with
      processed_restaurants := pc,
      current_batch := cb,
      is_completed := ic,
      error_message := em,
      last_updated := now,
      last_batch_completed_at :=
        if ic then some now else r.last_batch_completed_at }
  else r

/-- The INSERT branch of `update_scraping_progress`: a new row listing
only `session_id, processed_restaurants, current_batch, is_completed,
error_message`; every other column takes its schema default (`NOW()`
for the timestamp defaults, NULL for `last_batch_completed_at`, which
the column list omits even when `is_completed_param` is true). -/
def newProgressRow (sid : String) (pc cb : Int) (ic : Bool)
    (em : Option String) (now : Nat) : ProgressRow :=
  { session_id := sid, started_at := now, last_updated := now,
    total_restaurants := 0, scraped_count := 0, failed_count := 0,
    is_completed := ic, scraped_restaurants := [], created_at := now,
    updated_at := now, batch_size := 20, current_batch := cb,
    total_batches := 0, processed_restaurants := pc,
    last_batch_completed_at := none, error_message := em,
    resume_from_batch := 0 }

/-- The SQL function `update_scraping_progress(session_id_param,
processed_count, current_batch_param, is_completed_param, error_msg)`:
UPDATE the matching row; `IF NOT FOUND` INSERT a new one.  `now` stands
for the value of `NOW()` during the call. -/
def update_scraping_progress (t : List ProgressRow) (sid : String)
    (pc cb : Int) (ic : Bool) (em : Option String) (now : Nat) :
    List ProgressRow :=
  if t.any (fun r => r.session_id == sid) then
    t.map (applyProgressUpdate sid pc cb ic em now)
  else
    t ++ [newProgressRow sid pc cb ic em now]

/-- Look up the row of a session (the `WHERE session_id = ...` lookup,
unique by the table's constraint). -/
def findSession (t : List ProgressRow) (sid : String) : Option ProgressRow :=
  t.find? (fun r => r.session_id == sid)

/-- C10: calling the filtered fetch with an empty filter object is the
unfiltered fetch: on every database state the two return the same list —
all and only the rows with non-null latitude and longitude — and that
list is ordered by name, so the map client never receives a record
lacking coordinates even though the schema permits such rows. -/
theorem fetchWithFilters_empty_eq_fetchRestaurants (db : RestaurantTable) :
    fetchRestaurantsWithFilters {} db = fetchRestaurants db ∧
    (∀ r : Restaurant, r ∈ fetchRestaurants db ↔ r ∈ db ∧ coordsNotNull r = true) ∧
    (fetchRestaurants db).Sorted nameLe := by
  refine ⟨?_, fun r => mem_fetchRestaurants, ?_⟩
  · have hpred : ∀ r ∈ db, matchesFilters {} r = coordsNotNull r := by
      intro r _
      simp [matchesFilters, checkboxFilters]
    unfold fetchRestaurantsWithFilters fetchRestaurants
    rw [List.filter_congr hpred]
  · exact List.sorted_insertionSort nameLe _

/-- C8: with `is_other` as the only selected filter, the filtered fetch
returns exactly the stored rows with non-null coordinates whose three
dietary-tier flags are all false — the derived fourth category. -/
theorem fetchWithFilters_other_only (db : RestaurantTable) (r : Restaurant) :
    r ∈ fetchRestaurantsWithFilters { is_other := some true } db ↔
      r ∈ db ∧ coordsNotNull r = true ∧
      r.is_vegan = false ∧ r.is_vegetarian = false ∧ r.has_veg_options = false := by
  rw [mem_fetchRestaurantsWithFilters]
  simp [matchesFilters, checkboxFilters, and_assoc]

/-- C9 counterexample: the three tier filters do not return pairwise
disjoint sets — a row flagged both vegan and vegetarian is returned by
the vegan-only filter and by the vegetarian-only filter. -/
theorem tier_filters_not_disjoint :
    ¬ (∀ (db : RestaurantTable) (r : Restaurant),
        r ∈ fetchRestaurantsWithFilters { is_vegan := some true } db →
        r ∉ fetchRestaurantsWithFilters { is_vegetarian := some true } db) := by
  intro h
  exact h [rBoth] rBoth
    (mem_fetchRestaurantsWithFilters.mpr ⟨by simp, by decide⟩)
    (mem_fetchRestaurantsWithFilters.mpr ⟨by simp, by decide⟩)

/-- C9 (amended): a single tier filter returns exactly the rows with
that flag set, so the three tier filters may overlap on rows with
several flags set; the derived "other" category however is disjoint
from each of the three tier filters' results. -/
theorem other_filter_disjoint_from_tiers (db : RestaurantTable) (r : Restaurant)
    (h : r ∈ fetchRestaurantsWithFilters { is_other := some true } db) :
    r ∉ fetchRestaurantsWithFilters { is_vegan := some true } db ∧
    r ∉ fetchRestaurantsWithFilters { is_vegetarian := some true } db ∧
    r ∉ fetchRestaurantsWithFilters { has_veg_options := some true } db := by
  have hflags := (mem_fetchRestaurantsWithFilters.mp h).2
  simp only [matchesFilters, checkboxFilters] at hflags
  simp at hflags
  refine ⟨?_, ?_, ?_⟩ <;> intro hmem <;>
    · have hm := (mem_fetchRestaurantsWithFilters.mp hmem).2
      simp only [matchesFilters, checkboxFilters] at hm
      simp at hm
      simp_all

/-- C9 witness: a concrete "other" row is in no tier filter's result. -/
theorem other_filter_disjoint_from_tiers_witness :
    rOther ∉ fetchRestaurantsWithFilters { is_vegan := some true } [rOther] ∧
    rOther ∉ fetchRestaurantsWithFilters { is_vegetarian := some true } [rOther] ∧
    rOther ∉ fetchRestaurantsWithFilters { has_veg_options := some true } [rOther] :=
  other_filter_disjoint_from_tiers [rOther] rOther
    (mem_fetchRestaurantsWithFilters.mpr ⟨by simp, by decide⟩)

/-- The per-row UPDATE never changes the `session_id` column. -/
theorem applyProgressUpdate_session_id (sid : String) (pc cb : Int) (ic : Bool)
    (em : Option String) (now : Nat) (r : ProgressRow) :
    (applyProgressUpdate sid pc cb ic em now r).session_id = r.session_id := by
  unfold applyProgressUpdate
  split <;> rfl

/-- The per-row UPDATE is idempotent at a fixed clock reading. -/
theorem applyProgressUpdate_idem (sid : String) (pc cb : Int) (ic : Bool)
    (em : Option String) (now : Nat) (r : ProgressRow) :
    applyProgressUpdate sid pc cb ic em now (applyProgressUpdate sid pc cb ic em now r) =
      applyProgressUpdate sid pc cb ic em now r := by
  by_cases h : (r.session_id == sid) = true
  · cases ic <;> simp [applyProgressUpdate, h]
  · simp [applyProgressUpdate, h]

/-- Mapping the per-row UPDATE over the table leaves the set of
matching session ids unchanged. -/
theorem any_map_applyProgressUpdate (t : List ProgressRow) (sid : String)
    (pc cb : Int) (ic : Bool) (em : Option String) (now : Nat) :
    (t.map (applyProgressUpdate sid pc cb ic em now)).any
        (fun r => r.session_id == sid) = t.any (fun r => r.session_id == sid) := by
  rw [List.any_map]
  congr 1
  funext r
  simp [Function.comp, applyProgressUpdate_session_id]

/-- When a row for the session already exists, `update_scraping_progress`
is idempotent (both calls take the UPDATE branch). -/
theorem update_scraping_progress_idem_found (t : List ProgressRow) (sid : String)
    (pc cb : Int) (ic : Bool) (em : Option String) (now : Nat)
    (hfound : t.any (fun r => r.session_id == sid) = true) :
    update_scraping_progress (update_scraping_progress t sid pc cb ic em now)
        sid pc cb ic em now =
      update_scraping_progress t sid pc cb ic em now := by
  unfold update_scraping_progress
  rw [if_pos hfound]
  rw [if_pos ((any_map_applyProgressUpdate t sid pc cb ic em now).trans hfound)]
  rw [List.map_map]
  apply List.map_congr_left
  intro r _
  exact applyProgressUpdate_idem sid pc cb ic em now r

/-- C4 (amended): `update_scraping_progress` is idempotent — at a fixed
clock reading, applying it twice with the same arguments equals applying
it once — provided a row for the session already exists or the completed
flag is false.  (In the remaining case the INSERT branch leaves
`last_batch_completed_at` NULL while the second call sets it.) -/
theorem update_scraping_progress_idem (t : List ProgressRow) (sid : String)
    (pc cb : Int) (ic : Bool) (em : Option String) (now : Nat)
    (h : t.any (fun r => r.session_id == sid) = true ∨ ic = false) :
    update_scraping_progress (update_scraping_progress t sid pc cb ic em now)
        sid pc cb ic em now =
      update_scraping_progress t sid pc cb ic em now := by
  by_cases hfound : t.any (fun r => r.session_id == sid) = true
  · exact update_scraping_progress_idem_found t sid pc cb ic em now hfound
  · have hic : ic = false := h.resolve_left hfound
    subst hic
    unfold update_scraping_progress
    rw [if_neg hfound]
    have hany2 : ((t ++ [newProgressRow sid pc cb false em now]).any
        (fun r => r.session_id == sid)) = true := by
      rw [List.any_append]
      simp [newProgressRow]
    rw [if_pos hany2, List.map_append]
    have hmapt : t.map (applyProgressUpdate sid pc cb false em now) = t := by
      have hnone : ∀ r ∈ t, (r.session_id == sid) = false := by
        intro r hr
        by_contra hc
        exact hfound (List.any_eq_true.mpr ⟨r, hr, by revert hc; cases (r.session_id == sid) <;> simp⟩)
      calc t.map (applyProgressUpdate sid pc cb false em now)
          = t.map id := by
            apply List.map_congr_left
            intro r hr
            simp [applyProgressUpdate, hnone r hr]
        _ = t := List.map_id t
    rw [hmapt]
    have hnew : (applyProgressUpdate sid pc cb false em now
        (newProgressRow sid pc cb false em now)) = newProgressRow sid pc cb false em now := by
      simp [applyProgressUpdate, newProgressRow]
    simp [hnew]

/-- C4 counterexample: on an empty table with the completed flag true,
applying `update_scraping_progress` twice differs from applying it once —
the INSERT branch leaves `last_batch_completed_at` NULL, the second call
sets it to `NOW()`. -/
theorem update_scraping_progress_not_idem :
    update_scraping_progress
        (update_scraping_progress [] "s1" 5 1 true none 0) "s1" 5 1 true none 0 ≠
      update_scraping_progress [] "s1" 5 1 true none 0 := by
  decide

/-- C4 witness: idempotence at a concrete input satisfying the
hypothesis (empty table, completed flag false). -/
theorem update_scraping_progress_idem_witness :
    update_scraping_progress
        (update_scraping_progress [] "s1" 5 1 false none 0) "s1" 5 1 false none 0 =
      update_scraping_progress [] "s1" 5 1 false none 0 :=
  update_scraping_progress_idem [] "s1" 5 1 false none 0 (Or.inr rfl)

/-- C5: recording a sector-level failure — a progress update carrying an
error message with the completed flag false — stores the message on the
session's row and leaves the completion flag false, so the session stays
resumable. -/
theorem update_progress_failure_resumable (t : List ProgressRow) (sid : String)
    (pc cb : Int) (msg : String) (now : Nat) :
    ∃ row,
      findSession (update_scraping_progress t sid pc cb false (some msg) now) sid =
        some row ∧
      row.error_message = some msg ∧ row.is_completed = false := by
  unfold update_scraping_progress findSession
  by_cases hfound : t.any (fun r => r.session_id == sid) = true
  · rw [if_pos hfound, List.find?_map]
    have hcomp : ((fun r : ProgressRow => r.session_id == sid) ∘
        applyProgressUpdate sid pc cb false (some msg) now) =
        fun r => r.session_id == sid := by
      funext r
      simp [Function.comp, applyProgressUpdate_session_id]
    rw [hcomp]
    obtain ⟨r, hr⟩ := Option.isSome_iff_exists.mp
      (List.find?_isSome.mpr (List.any_eq_true.mp hfound))
    refine ⟨applyProgressUpdate sid pc cb false (some msg) now r, ?_, ?_, ?_⟩
    · rw [hr]
      rfl
    · simp [applyProgressUpdate, List.find?_some hr]
    · simp [applyProgressUpdate, List.find?_some hr]
  · rw [if_neg hfound, List.find?_append]
    have hnone : t.find? (fun r => r.session_id == sid) = none := by
      rw [List.find?_eq_none]
      intro r hr
      by_contra hc
      exact hfound (List.any_eq_true.mpr ⟨r, hr, by revert hc; cases (r.session_id == sid) <;> simp⟩)
    rw [hnone]
    exact ⟨newProgressRow sid pc cb false (some msg) now, by simp [newProgressRow], rfl, rfl⟩

/-- Filling an already-populated field is the identity. -/
theorem fillAbsent_of_isSome {α : Type} {old new : Option α}
    (h : old.isSome = true) : fillAbsent old new = old := by
  cases old with
  | some v => rfl
  | none => simp at h

/-- C7: the enrichment update only fills absent fields — every field
already populated keeps its value regardless of what the detail page
reports, and the non-enrichable columns (id, name, coordinates, flags,
features) are untouched. -/
theorem enrichRow_preserves_populated (r : Restaurant) (d : DetailFields) :
    (r.address.isSome = true → (enrichRow r d).address = r.address) ∧
    (r.phone.isSome = true → (enrichRow r d).phone = r.phone) ∧
    (r.website.isSome = true → (enrichRow r d).website = r.website) ∧
    (r.cow_reviews.isSome = true → (enrichRow r d).cow_reviews = r.cow_reviews) ∧
    (r.description.isSome = true → (enrichRow r d).description = r.description) ∧
    (r.category.isSome = true → (enrichRow r d).category = r.category) ∧
    (r.price_range.isSome = true → (enrichRow r d).price_range = r.price_range) ∧
    (r.rating.isSome = true → (enrichRow r d).rating = r.rating) ∧
    (r.review_count.isSome = true → (enrichRow r d).review_count = r.review_count) ∧
    (r.hours.isSome = true → (enrichRow r d).hours = r.hours) ∧
    (enrichRow r d).id = r.id ∧ (enrichRow r d).name = r.name ∧
    (enrichRow r d).latitude = r.latitude ∧
    (enrichRow r d).longitude = r.longitude ∧
    (enrichRow r d).is_vegan = r.is_vegan ∧
    (enrichRow r d).is_vegetarian = r.is_vegetarian ∧
    (enrichRow r d).has_veg_options = r.has_veg_options ∧
    (enrichRow r d).features = r.features := by
  refine ⟨?_, ?_, ?_, ?_, ?_, ?_, ?_, ?_, ?_, ?_, rfl, rfl, rfl, rfl, rfl, rfl, rfl, rfl⟩ <;>
    · intro h
      simp [enrichRow, fillAbsent_of_isSome, h]

/-- C7 witness: a fully populated row enriched against a detail page
reporting different values keeps its populated fields. -/
theorem enrichRow_preserves_populated_witness :
    (enrichRow rFull dOther).address = rFull.address ∧
    (enrichRow rFull dOther).rating = rFull.rating ∧
    (enrichRow rFull dOther).category = rFull.category :=
  ⟨(enrichRow_preserves_populated rFull dOther).1 rfl,
   (enrichRow_preserves_populated rFull dOther).2.2.2.2.2.2.2.1 rfl,
   (enrichRow_preserves_populated rFull dOther).2.2.2.2.2.1 rfl⟩

/-- C3: a completed session is terminal — `resume` on it is rejected
with an error, the state is passed back unaltered, and in particular
the stored record count and the session row are unchanged. -/
theorem resume_completed_rejected (os : OrchState)
    (sectors : List (List RawFragment)) (h : os.session.completed = true) :
    resumeRun os sectors = (.error "session already completed", os) ∧
    (resumeRun os sectors).2.store.rows.length = os.store.rows.length ∧
    (resumeRun os sectors).2.session = os.session := by
  have he : resumeSession os.session = .error "session already completed" := by
    simp [resumeSession, h]
  refine ⟨?_, ?_, ?_⟩ <;> simp [resumeRun, he]

/-- C3 witness: resuming a concrete completed session is rejected. -/
theorem resume_completed_rejected_witness :
    resumeRun osCompleted [] = (.error "session already completed", osCompleted) ∧
    (resumeRun osCompleted []).2.store.rows.length = osCompleted.store.rows.length ∧
    (resumeRun osCompleted []).2.session = osCompleted.session :=
  resume_completed_rejected osCompleted [] rfl

/-- The enrichment map never changes a row's coordinates. -/
theorem enrichStore_row_coords (id : Nat) (d : DetailFields) (r : Restaurant) :
    (if r.id == id then enrichRow r d else r).latitude = r.latitude ∧
    (if r.id == id then enrichRow r d else r).longitude = r.longitude := by
  split <;> exact ⟨rfl, rfl⟩

/-- An insert at an occupied location reports `AlreadyExists` and
returns the store untouched. -/
theorem insertRecord_taken {s : Store} {c : CandidateRecord}
    (h : locationTaken s c.latitude c.longitude = true) :
    insertRecord s c = (.AlreadyExists, s) := by
  simp [insertRecord, h]

/-- An insert at a free location appends the row under the next SERIAL
id and advances the sequence. -/
theorem insertRecord_free {s : Store} {c : CandidateRecord}
    (h : locationTaken s c.latitude c.longitude = false) :
    insertRecord s c = (.Inserted s.nextId,
      { rows := s.rows ++ [candidateRow s.nextId c], nextId := s.nextId + 1 }) := by
  simp [insertRecord, h]

/-- Invariant: in every reachable store, no two rows share the same
`(latitude, longitude)` pair — the `unique_restaurant_location`
constraint, maintained by the writer's guard and untouched by
enrichment. -/
theorem reachableStore_locations_distinct (s : Store) (h : ReachableStore s) :
    s.rows.Pairwise
      (fun a b => ¬(a.latitude = b.latitude ∧ a.longitude = b.longitude)) := by
  induction h with
  | empty => simp [emptyStore]
  | insert s c _ ih =>
    by_cases ht : locationTaken s c.latitude c.longitude = true
    · simpa [insertRecord_taken ht] using ih
    · have ht' : locationTaken s c.latitude c.longitude = false := by
        revert ht
        cases locationTaken s c.latitude c.longitude <;> simp
      have hclash : ∀ a ∈ s.rows,
          ¬(a.latitude = some c.latitude ∧ a.longitude = some c.longitude) := by
        intro a ha hcl
        have := List.any_eq_false.mp ht' a ha
        simp [hcl.1, hcl.2] at this
      rw [insertRecord_free ht']
      rw [List.pairwise_append]
      refine ⟨ih, by simp, ?_⟩
      intro a ha b hb
      simp only [List.mem_singleton] at hb
      subst hb
      intro hcl
      exact hclash a ha ⟨by simpa [candidateRow] using hcl.1,
        by simpa [candidateRow] using hcl.2⟩
  | enrich s id d _ ih =>
    simp only [enrichStore]
    rw [List.pairwise_map]
    refine ih.imp ?_
    intro a b hab hcl
    exact hab ⟨by rw [← (enrichStore_row_coords id d a).1, ← (enrichStore_row_coords id d b).1]; exact hcl.1,
      by rw [← (enrichStore_row_coords id d a).2, ← (enrichStore_row_coords id d b).2]; exact hcl.2⟩

/-- C1: inserting two candidates with identical coordinates but
different names stores exactly one row — the first wins and receives the
next SERIAL id, the second insert yields `AlreadyExists` and leaves the
store untouched — and no reachable store state has two rows sharing a
`(latitude, longitude)` pair. -/
theorem insert_duplicate_location (s : Store) (c1 c2 : CandidateRecord)
    (hla : c2.latitude = c1.latitude) (hlo : c2.longitude = c1.longitude)
    (hfree : locationTaken s c1.latitude c1.longitude = false) :
    (insertRecord s c1).1 = .Inserted s.nextId ∧
    (insertRecord (insertRecord s c1).2 c2).1 = .AlreadyExists ∧
    (insertRecord (insertRecord s c1).2 c2).2 = (insertRecord s c1).2 ∧
    ((insertRecord s c1).2.rows.filter
        (fun r => r.latitude == some c1.latitude &&
          r.longitude == some c1.longitude)).length = 1 ∧
    (∀ st, ReachableStore st →
        st.rows.Pairwise
          (fun a b => ¬(a.latitude = b.latitude ∧ a.longitude = b.longitude))) := by
  have htaken : locationTaken (insertRecord s c1).2 c2.latitude c2.longitude = true := by
    rw [locationTaken, List.any_eq_true]
    refine ⟨candidateRow s.nextId c1, ?_, ?_⟩
    · rw [insertRecord_free hfree]
      simp
    · simp [candidateRow, hla, hlo]
  refine ⟨by rw [insertRecord_free hfree], by rw [insertRecord_taken htaken],
    by rw [insertRecord_taken htaken], ?_,
    fun st hst => reachableStore_locations_distinct st hst⟩
  have hfilter : s.rows.filter
      (fun r => r.latitude == some c1.latitude && r.longitude == some c1.longitude) = [] := by
    rw [List.filter_eq_nil_iff]
    intro r hr
    have := List.any_eq_false.mp hfree r hr
    simpa using this
  rw [insertRecord_free hfree]
  simp [List.filter_append, hfilter, candidateRow]

/-- C1 witness: concrete duplicate coordinates under different names —
first insert wins with id 1, second reports `AlreadyExists`. -/
theorem insert_duplicate_location_witness :
    (insertRecord emptyStore cA).1 = .Inserted 1 ∧
    (insertRecord (insertRecord emptyStore cA).2 cB).1 = .AlreadyExists ∧
    ((insertRecord emptyStore cA).2.rows.filter
        (fun r => r.latitude == some cA.latitude &&
          r.longitude == some cA.longitude)).length = 1 :=
  ⟨(insert_duplicate_location emptyStore cA cB rfl rfl (by decide)).1,
   (insert_duplicate_location emptyStore cA cB rfl rfl (by decide)).2.1,
   (insert_duplicate_location emptyStore cA cB rfl rfl (by decide)).2.2.2.1⟩

/-- A successfully extracted candidate has a non-empty name. -/
theorem extractRecord_ok_name (f : RawFragment) (c : CandidateRecord)
    (h : extractRecord f = .ok c) : c.name ≠ "" := by
  unfold extractRecord at h
  split at h
  · split at h
    · split at h
      · exact absurd h (by simp)
      · next hn =>
          obtain rfl : c = _ := by
            simpa using h.symm
          simpa using hn
    · exact absurd h (by simp)
  · exact absurd h (by simp)

/-- One pipeline step preserves the required-field condition on every
row: rejected fragments add nothing, accepted candidates become rows
with a non-empty name and both coordinates present. -/
theorem processFragment_valid (s : Store) (f : RawFragment)
    (hs : ∀ r ∈ s.rows, validRow r) :
    ∀ r ∈ (processFragment s f).rows, validRow r := by
  unfold processFragment
  cases hex : extractRecord f with
  | error e => exact hs
  | ok c =>
    show ∀ r ∈ (insertRecord s c).2.rows, validRow r
    by_cases ht : locationTaken s c.latitude c.longitude = true
    · rw [insertRecord_taken ht]
      exact hs
    · have ht' : locationTaken s c.latitude c.longitude = false := by
        revert ht
        cases locationTaken s c.latitude c.longitude <;> simp
      rw [insertRecord_free ht']
      intro r hr
      rcases List.mem_append.mp hr with h1 | h2
      · exact hs r h1
      · simp only [List.mem_singleton] at h2
        subst h2
        exact ⟨extractRecord_ok_name f c hex, rfl, rfl⟩

/-- Persisting a whole sector preserves the required-field condition. -/
theorem processSector_valid (frags : List RawFragment) :
    ∀ s : Store, (∀ r ∈ s.rows, validRow r) →
      ∀ r ∈ (processSector s frags).rows, validRow r := by
  induction frags with
  | nil => exact fun s hs => hs
  | cons g rest ih =>
    intro s hs
    exact ih (processFragment s g) (processFragment_valid s g hs)

/-- Enrichment preserves the required-field condition (it never writes
name or coordinates). -/
theorem enrichStore_valid (s : Store) (id : Nat) (d : DetailFields)
    (hs : ∀ r ∈ s.rows, validRow r) :
    ∀ r ∈ (enrichStore s id d).rows, validRow r := by
  intro r hr
  simp only [enrichStore, List.mem_map] at hr
  obtain ⟨a, ha, rfl⟩ := hr
  have hv := hs a ha
  split
  · exact ⟨hv.1, hv.2.1, hv.2.2⟩
  · exact hv

/-- C6: every row of a store reachable through the crawl pipeline and
enrichment has a non-empty name and both coordinates present — a
candidate lacking them is discarded before persistence. -/
theorem pipeline_rows_required_fields (s : Store) (h : PipelineReachable s) :
    ∀ r ∈ s.rows,
      r.name ≠ "" ∧ r.latitude.isSome = true ∧ r.longitude.isSome = true := by
  induction h with
  | empty => simp [emptyStore]
  | sector s frags _ ih => exact processSector_valid frags s ih
  | enrich s id d _ ih => exact enrichStore_valid s id d ih

/-- C6 witness: the row produced by a concrete crawl of one sector has
its required fields populated. -/
theorem pipeline_rows_required_fields_witness :
    (candidateRow 1 cA).name ≠ "" ∧ (candidateRow 1 cA).latitude.isSome = true ∧
      (candidateRow 1 cA).longitude.isSome = true :=
  pipeline_rows_required_fields (processSector emptyStore [fragA])
    (.sector emptyStore [fragA] .empty) (candidateRow 1 cA) (by decide)

/-- A pipeline step never removes or modifies an existing row. -/
theorem processFragment_rows_mono (s : Store) (f : RawFragment) :
    ∀ r ∈ s.rows, r ∈ (processFragment s f).rows := by
  intro r hr
  unfold processFragment
  cases extractRecord f with
  | error e => exact hr
  | ok c =>
    show r ∈ (insertRecord s c).2.rows
    by_cases ht : locationTaken s c.latitude c.longitude = true
    · rw [insertRecord_taken ht]
      exact hr
    · have ht' : locationTaken s c.latitude c.longitude = false := by
        revert ht
        cases locationTaken s c.latitude c.longitude <;> simp
      rw [insertRecord_free ht']
      exact List.mem_append_left _ hr

/-- Persisting a sector never removes or modifies an existing row. -/
theorem processSector_rows_mono (frags : List RawFragment) :
    ∀ s : Store, ∀ r ∈ s.rows, r ∈ (processSector s frags).rows := by
  induction frags with
  | nil => exact fun s r hr => hr
  | cons g rest ih =>
    intro s r hr
    exact ih (processFragment s g) r (processFragment_rows_mono s g r hr)

/-- Running the orchestrator never removes or modifies an existing row. -/
theorem runSectorsFrom_rows_mono (rest : List (List RawFragment)) :
    ∀ (os : OrchState) (k : Nat), ∀ r ∈ os.store.rows,
      r ∈ (runSectorsFrom os k rest).store.rows := by
  induction rest with
  | nil => exact fun os k r hr => hr
  | cons g rest2 ih =>
    intro os k r hr
    exact ih (orchStep os k g) (k + 1) r (processSector_rows_mono g os.store r hr)

/-- An occupied location stays occupied in any store holding at least
the same rows. -/
theorem locationTaken_of_subset {s s2 : Store}
    (hsub : ∀ r ∈ s.rows, r ∈ s2.rows) {la lo : Rat}
    (h : locationTaken s la lo = true) : locationTaken s2 la lo = true := by
  rw [locationTaken, List.any_eq_true] at h ⊢
  obtain ⟨r, hr, hp⟩ := h
  exact ⟨r, hsub r hr, hp⟩

/-- After a fragment is processed, its extracted candidate's location
is occupied (either it already was, or the row was just inserted). -/
theorem processFragment_stores (s : Store) (f : RawFragment) (c : CandidateRecord)
    (h : extractRecord f = .ok c) :
    locationTaken (processFragment s f) c.latitude c.longitude = true := by
  unfold processFragment
  rw [h]
  show locationTaken (insertRecord s c).2 c.latitude c.longitude = true
  by_cases ht : locationTaken s c.latitude c.longitude = true
  · rw [insertRecord_taken ht]
    exact ht
  · have ht' : locationTaken s c.latitude c.longitude = false := by
      revert ht
      cases locationTaken s c.latitude c.longitude <;> simp
    rw [insertRecord_free ht']
    rw [locationTaken, List.any_eq_true]
    exact ⟨candidateRow s.nextId c, by simp, by simp [candidateRow]⟩

/-- After a sector is persisted, every candidate extracted from it has
an occupied location in the store. -/
theorem processSector_stores (frags : List RawFragment) :
    ∀ (s : Store) (f : RawFragment) (c : CandidateRecord), f ∈ frags →
      extractRecord f = .ok c →
      locationTaken (processSector s frags) c.latitude c.longitude = true := by
  induction frags with
  | nil => intro s f c hf; simp at hf
  | cons g rest ih =>
    intro s f c hf hx
    rcases List.mem_cons.mp hf with h1 | h2
    · subst h1
      exact locationTaken_of_subset
        (processSector_rows_mono rest (processFragment s f))
        (processFragment_stores s f c hx)
    · exact ih (processFragment s g) f c h2 hx

/-- The orchestrator's committed cursor after processing a non-empty
block starting at sector `k` is `k` plus the number of sectors done. -/
theorem runSectorsFrom_cursor (rest : List (List RawFragment)) :
    ∀ (os : OrchState) (k : Nat), rest ≠ [] →
      (runSectorsFrom os k rest).session.cursor = k + rest.length := by
  induction rest with
  | nil => intro os k h; exact absurd rfl h
  | cons g rest2 ih =>
    intro os k _
    by_cases hr : rest2 = []
    · subst hr
      simp [runSectorsFrom, orchStep, advanceSession]
    · show (runSectorsFrom (orchStep os k g) (k + 1) rest2).session.cursor = _
      rw [ih (orchStep os k g) (k + 1) hr]
      simp
      omega

/-- The orchestrator loop never touches the completion flag. -/
theorem runSectorsFrom_completed (rest : List (List RawFragment)) :
    ∀ (os : OrchState) (k : Nat),
      (runSectorsFrom os k rest).session.completed = os.session.completed := by
  induction rest with
  | nil => exact fun os k => rfl
  | cons g rest2 ih =>
    intro os k
    exact ih (orchStep os k g) (k + 1)

/-- Every candidate extracted from any processed sector of a block has
an occupied location in the final store. -/
theorem runSectorsFrom_stores (rest : List (List RawFragment)) :
    ∀ (os : OrchState) (k i : Nat) (frags : List RawFragment),
      rest[i]? = some frags → ∀ f ∈ frags, ∀ c : CandidateRecord,
      extractRecord f = .ok c →
      locationTaken (runSectorsFrom os k rest).store c.latitude c.longitude = true := by
  induction rest with
  | nil => intro os k i frags h; simp at h
  | cons g rest2 ih =>
    intro os k i frags hget f hf c hx
    cases i with
    | zero =>
      simp only [List.getElem?_cons_zero, Option.some.injEq] at hget
      subst hget
      exact locationTaken_of_subset
        (fun r hr => runSectorsFrom_rows_mono rest2 (orchStep os k g) (k + 1) r hr)
        (processSector_stores g os.store f c hf hx)
    | succ j =>
      simp only [List.getElem?_cons_succ] at hget
      exact ih (orchStep os k g) (k + 1) j frags hget f hf c hx

/-- C2: if the run is stopped after committing sector K and before
starting sector K+1, every record extracted from sectors 0..K has its
location durably in the store, the session is uncompleted with cursor
K+1, and resume continues exactly over sectors K+1 onward — never
reprocessing 0..K — with the crash-time rows surviving unchanged. -/
theorem crash_resume_safe (sectors : List (List RawFragment)) (sid : String)
    (K : Nat) (hK : K + 1 ≤ sectors.length) :
    let crash := runSectorsFrom
      { store := emptyStore, session := startSession sid sectors.length } 0
      (sectors.take (K + 1))
    crash.session.cursor = K + 1 ∧
    crash.session.completed = false ∧
    (∀ i, i ≤ K → ∀ frags, sectors[i]? = some frags → ∀ f ∈ frags,
        ∀ c : CandidateRecord, extractRecord f = .ok c →
        locationTaken crash.store c.latitude c.longitude = true) ∧
    resumeRun crash sectors =
      (.ok (), runSectorsFrom crash (K + 1) (sectors.drop (K + 1))) ∧
    (∀ r ∈ crash.store.rows, r ∈ (resumeRun crash sectors).2.store.rows) := by
  intro crash
  have htne : sectors.take (K + 1) ≠ [] := by
    intro he
    have := List.length_take (K + 1) sectors
    rw [he] at this
    simp at this
    omega
  have hlen : (sectors.take (K + 1)).length = K + 1 := by
    rw [List.length_take]
    omega
  have hcur : crash.session.cursor = K + 1 := by
    show (runSectorsFrom _ 0 (sectors.take (K + 1))).session.cursor = K + 1
    rw [runSectorsFrom_cursor (sectors.take (K + 1)) _ 0 htne, hlen]
    omega
  have hcomp : crash.session.completed = false := by
    show (runSectorsFrom _ 0 (sectors.take (K + 1))).session.completed = false
    rw [runSectorsFrom_completed]
    rfl
  have hresume : resumeRun crash sectors =
      (.ok (), runSectorsFrom crash (K + 1) (sectors.drop (K + 1))) := by
    rw [resumeRun, resumeSession, hcomp, hcur]
    simp
  refine ⟨hcur, hcomp, ?_, hresume, ?_⟩
  · intro i hi frags hget f hf c hx
    have hget' : (sectors.take (K + 1))[i]? = some frags := by
      rw [List.getElem?_take]
      rw [if_pos (by omega)]
      exact hget
    exact runSectorsFrom_stores (sectors.take (K + 1)) _ 0 i frags hget' f hf c hx
  · intro r hr
    rw [hresume]
    exact runSectorsFrom_rows_mono (sectors.drop (K + 1)) crash (K + 1) r hr

/-- C2 witness: a one-sector crawl stopped after sector 0 has cursor 1. -/
theorem crash_resume_safe_witness :
    (runSectorsFrom
      { store := emptyStore, session := startSession "s" 1 } 0
      ([[fragA]].take 1)).session.cursor = 1 :=
  (crash_resume_safe [[fragA]] "s" 0 (by decide)).1

